import Mathlib

/-!
Verification of the schema-versioned document repository
(`repository.ts`: `Repository`, `SingletonRepository`, `BaseClass`;
`ProjectDocument.migrate` from the discriminated-union migration module;
row-level access control from the `user_data` SQL schema).

Payloads are modelled as JSON-like runtime values (`JsonVal`), with
`undefined` for JavaScript's `undefined` so that absent object fields and
`case undefined` in the migration switch are represented faithfully.
Numbers are modelled as integers (every version tag and every field the
claims touch is integral).
-/

namespace VersionedRepo

/-- A JavaScript runtime value as the migrator sees it: JSON values plus
`undefined`. Objects are ordered field lists, as produced by object
literals and spreads. -/
inductive JsonVal : Type where
  | undefined : JsonVal
  | null : JsonVal
  | bool (b : Bool) : JsonVal
  | num (n : Int) : JsonVal
  | str (s : String) : JsonVal
  | arr (elems : List JsonVal) : JsonVal
  | obj (fields : List (String × JsonVal)) : JsonVal

namespace JsonVal

/-- First binding of a key in an ordered field list (object literals and
the spreads below keep keys unique, so first = only). Missing keys read
as `undefined`, as in JavaScript. -/
def lookupField : List (String × JsonVal) → String → JsonVal
  | [], _ => .undefined
  | (k', v) :: rest, k => if k' = k then v else lookupField rest k

/-- Property access `v.k`: `undefined` on non-objects (matching
JavaScript property reads on primitives, which yield `undefined` for
the names used here; reads on `null`/`undefined` are handled separately
as type errors where they occur). -/
def getField (v : JsonVal) (k : String) : JsonVal :=
  match v with
  | .obj fs => lookupField fs k
  | _ => .undefined

/-- Spread-override step `{...fs, k: v}`: replace the value of `k` in place if present
(JavaScript keeps the original key position), else append the new key. -/
def setField (fs : List (String × JsonVal)) (k : String) (v : JsonVal) :
    List (String × JsonVal) :=
  if fs.any (fun p => p.1 = k) then
    fs.map (fun p => if p.1 = k then (k, v) else p)
  else
    fs ++ [(k, v)]

/-- Enumerable own fields contributed by a spread `{...v}`: an object's
fields; primitives contribute nothing (string index properties are not
used by any payload here). -/
def objFieldsOf : JsonVal → List (String × JsonVal)
  | .obj fs => fs
  | _ => []

/-- The key list of an object payload (its field set, in order). -/
def fieldNames : JsonVal → List String
  | .obj fs => fs.map Prod.fst
  | _ => []

/-- Strict-equality test `v === undefined` as used by
`case undefined:` of the migration switch. -/
def isUndefined : JsonVal → Bool
  | .undefined => true
  | _ => false

/-- Strict-equality test of a runtime value against a number literal, as
used by the numeric cases of the migration switch (no coercion: a string
`"1"` does not match `1`). -/
def eqNum (v : JsonVal) (n : Int) : Bool :=
  match v with
  | .num m => m == n
  | _ => false

/-- Strict-equality test of a runtime value against a string literal. -/
def eqStr (v : JsonVal) (s : String) : Bool :=
  match v with
  | .str t => t == s
  | _ => false

end JsonVal

open JsonVal

/-- Errors thrown by a `migrate` implementation: the
`Unknown version: ...` error carries the offending version value it
names in its message; `typeError` is the TypeError raised by reading a
property of `null`/`undefined`. -/
inductive MigError : Type where
  | unknownVersion (v : JsonVal) : MigError
  | typeError : MigError

/-- Function `ProjectDocument.migrate` (discriminated-union version):
`switch (typed.version)` with fallthrough `case undefined: case 1:`
building a fresh v3 object, `case 2:` spreading the input and overriding
`version` and adding `tags`, `case 3:` returning the input as-is, and a
default branch throwing `Unknown version` naming the version value. -/
def projectMigrate (data : JsonVal) : Except MigError JsonVal :=
  match data with
  | .null => .error .typeError
  | .undefined => .error .typeError
  | _ =>
    let v := getField data "version"
    if isUndefined v || eqNum v 1 then
      .ok (.obj [("version", .num 3),
                 ("typeName", .str "projects"),
                 ("title", getField data "title"),
                 ("members", .arr [getField data "owner"]),
                 ("description", getField data "description"),
                 ("priority", .num 5),
                 ("tags", .arr [])])
    else if eqNum v 2 then
      .ok (.obj (setField (setField (objFieldsOf data) "version" (.num 3))
                          "tags" (.arr [])))
    else if eqNum v 3 then
      .ok data
    else
      .error (.unknownVersion v)

/-- The current project version constant `PROJECT_VERSION`. -/
def PROJECT_VERSION : Int := 3

/-- Whether a value is a string (shape check for `title`/`description`). -/
def isStr : JsonVal → Bool
  | .str _ => true
  | _ => false

/-- Whether a value is a number (shape check for `priority`). -/
def isNum : JsonVal → Bool
  | .num _ => true
  | _ => false

/-- Whether a value is an array of strings (shape check for
`members`/`tags`). -/
def isStrArr : JsonVal → Bool
  | .arr xs => xs.all isStr
  | _ => false

/-- The field names of the current schema `ProjectV3`, in declaration
order: `version`, `typeName`, `title`, `members`, `description`,
`priority`, `tags`. -/
def projectV3Fields : List String :=
  ["version", "typeName", "title", "members", "description", "priority", "tags"]

/-- Shape of the current schema `ProjectV3`: an object carrying exactly
the `ProjectV3` interface fields with their declared types —
`version: 3`, `typeName: "projects"`, `title: string`,
`members: string[]`, `description: string`, `priority: number`,
`tags: string[]` — and no field outside the schema. -/
def isProjectV3Shape (p : JsonVal) : Bool :=
  match p with
  | .obj fs =>
      eqNum (getField p "version") 3 &&
      eqStr (getField p "typeName") "projects" &&
      isStr (getField p "title") &&
      isStrArr (getField p "members") &&
      isStr (getField p "description") &&
      isNum (getField p "priority") &&
      isStrArr (getField p "tags") &&
      fs.all (fun kv => projectV3Fields.contains kv.1)
  | _ => false

/-! ## The `user_data` row store and its row-level access control

A `Row` is one record of the `user_data` table. The generated columns
`public_read`/`public_update` are pure functions of the payload
(`COALESCE((data->>'publicRead')::boolean, false)` and likewise for
`publicUpdate`); the application only ever writes JSON booleans into
those fields, which is the case the boolean cast is modelled for. -/

/-- One row of the `user_data` table. -/
structure Row : Type where
  id : String
  user_id : String
  type_name : String
  data : JsonVal
  created_at : Nat
  updated_at : Nat

/-- Generated column `public_read`: the payload's `publicRead` field
coalesced to `false`. -/
def publicReadFlag (d : JsonVal) : Bool :=
  match getField d "publicRead" with
  | .bool b => b
  | _ => false

/-- Generated column `public_update`: the payload's `publicUpdate` field
coalesced to `false`. -/
def publicUpdateFlag (d : JsonVal) : Bool :=
  match getField d "publicUpdate" with
  | .bool b => b
  | _ => false

/-- Row-level SELECT visibility: policies "Users read own data"
(`auth.uid() = user_id`) and "Public read access" (`public_read = true`),
OR-combined. An unauthenticated caller is `none`. -/
def canRead (caller : Option String) (r : Row) : Bool :=
  (match caller with
   | some u => u == r.user_id
   | none => false) || publicReadFlag r.data

/-- Row-level UPDATE permission (`USING` side): policies "Users update
own data" and "Public update access" (`public_update` and any
authenticated caller), OR-combined. -/
def canUpdateRow (caller : Option String) (r : Row) : Bool :=
  (match caller with
   | some u => u == r.user_id
   | none => false) || (publicUpdateFlag r.data && caller.isSome)

/-- Row-level UPDATE permission (`WITH CHECK` side), evaluated on the
row as it would be after the write. -/
def updateCheck (caller : Option String) (r : Row) : Bool :=
  canUpdateRow caller r

/-- Row-level DELETE permission: only the owner
(`auth.uid() = user_id`). -/
def canDelete (caller : Option String) (r : Row) : Bool :=
  match caller with
  | some u => u == r.user_id
  | none => false

/-! ## Repository operations

`Repository` is generic over the document class; the model is
parametrized by the repository's `typeName` and `currentVersion` and,
where migration runs, by the class's `migrate` function. -/

/-- Errors surfaced by repository operations. -/
inductive RepoError : Type where
  | unauthenticated : RepoError
  | migration (e : MigError) : RepoError
  | duplicateKey : RepoError
  | accessDenied : RepoError

/-- The payload actually persisted by `save`/`update`/singleton writes:
`{...document.data, typeName: this.typeName, version: this.currentVersion}`. -/
def stampData (t : String) (ver : Int) (d : JsonVal) : JsonVal :=
  .obj (setField (setField (objFieldsOf d) "typeName" (.str t))
                 "version" (.num ver))

/-- The rows a `select().eq('id', id)` query returns to `caller`: rows
with that id that row-level security lets the caller see. -/
def selectById (caller : Option String) (store : List Row) (id : String) :
    List Row :=
  store.filter (fun r => r.id == id && canRead caller r)

/-- Operation `Repository.get`: fetch by id with `.single()`; the `PGRST116`
error (row count ≠ 1, in particular not-found and not-visible) is
collapsed to `null`; otherwise the stored payload is migrated and the
document returned. Migration failures propagate. -/
def getOp (migr : JsonVal → Except MigError JsonVal)
    (caller : Option String) (store : List Row) (id : String) :
    Except RepoError (Option JsonVal) :=
  match selectById caller store id with
  | [r] =>
    match migr r.data with
    | .ok d => .ok (some d)
    | .error e => .error (.migration e)
  | _ => .ok none

/-- Operation `Repository.save`: requires an authenticated user
(`User not authenticated` otherwise), stamps `typeName` and `version`
onto the payload, and inserts a new row owned by the caller (the insert
policy `auth.uid() = user_id` is satisfied by construction). `fresh` is
the identifier the storage engine generates; a collision violates the
primary key. Returns the new row id. -/
def saveOp (t : String) (ver : Int) (caller : Option String)
    (doc : JsonVal) (store : List Row) (fresh : String) (now : Nat) :
    Except RepoError (String × List Row) :=
  match caller with
  | none => .error .unauthenticated
  | some u =>
    let d := stampData t ver doc
    if store.any (fun r => r.id == fresh) then
      .error .duplicateKey
    else
      .ok (fresh, store ++ [⟨fresh, u, t, d, now, now⟩])

/-- Operation `Repository.update`: no authentication check of its own; stamps
`typeName`/`version` and overwrites the payload of every row matching
the id that the UPDATE policies let the caller touch (0 matching rows is
success, not an error). The `WITH CHECK` half of the policies is
evaluated on the rewritten row. -/
def updateOp (t : String) (ver : Int) (caller : Option String)
    (store : List Row) (id : String) (doc : JsonVal) (now : Nat) :
    Except RepoError (List Row) :=
  let d := stampData t ver doc
  if store.any (fun r => r.id == id && canUpdateRow caller r &&
      !updateCheck caller { r with data := d, updated_at := now }) then
    .error .accessDenied
  else
    .ok (store.map (fun r =>
      if r.id == id && canUpdateRow caller r then
        { r with data := d, updated_at := now }
      else r))

/-- Operation `Repository.delete`: no authentication check of its own; removes the
rows matching the id that the DELETE policy lets the caller remove (0
matching rows is success). -/
def deleteOp (caller : Option String) (store : List Row) (id : String) :
    Except RepoError (List Row) :=
  .ok (store.filter (fun r => !(r.id == id && canDelete caller r)))

/-- One element of a `list` result: id, migrated document, and
created/updated metadata. -/
structure ListEntry : Type where
  id : String
  doc : JsonVal
  created : Nat
  updated : Nat

/-- The per-row mapping of `Repository.list` over the rows the storage
query returned (query execution — type filter, ordering, pagination —
is the storage engine's, an external capability): each row's payload is
migrated in order; the first migration failure aborts the whole call. -/
def listOp (migr : JsonVal → Except MigError JsonVal) :
    List Row → Except RepoError (List ListEntry)
  | [] => .ok []
  | r :: rest =>
    match migr r.data with
    | .error e => .error (.migration e)
    | .ok d =>
      match listOp migr rest with
      | .error e => .error e
      | .ok l => .ok (⟨r.id, d, r.created_at, r.updated_at⟩ :: l)

/-! ## Singleton repository -/

/-- Function `SingletonRepository.getDeterministicId` without its auth fetch: the
deterministic row identifier, a stable concatenation of the type name
and the user id. -/
def singletonId (t u : String) : String :=
  t ++ "_" ++ u

/-- The not-found continuation of `SingletonRepository.get`: stamp the
default document, insert it under the deterministic id, and treat a
duplicate-key failure (Postgres `23505`, the primary key already taken
by a racing first access) as success-with-existing-row — the caller
gets the default document either way and never sees the duplicate
error. -/
def singletonCreateDefault (t : String) (ver : Int) (dflt : JsonVal)
    (u : String) (store : List Row) (now : Nat) :
    Except RepoError (JsonVal × List Row) :=
  let id := singletonId t u
  let d := stampData t ver dflt
  if store.any (fun r => r.id == id) then
    .ok (d, store)
  else
    .ok (d, store ++ [⟨id, u, t, d, now, now⟩])

/-- Operation `SingletonRepository.get`: requires an authenticated user (the
deterministic id derivation throws `User not authenticated` otherwise);
fetches by the deterministic id, migrating the stored payload when the
row is visible, and falling back to default-document creation on the
`PGRST116` not-found result. -/
def singletonGet (t : String) (ver : Int)
    (migr : JsonVal → Except MigError JsonVal) (dflt : JsonVal)
    (caller : Option String) (store : List Row) (now : Nat) :
    Except RepoError (JsonVal × List Row) :=
  match caller with
  | none => .error .unauthenticated
  | some u =>
    match selectById (some u) store (singletonId t u) with
    | [r] =>
      match migr r.data with
      | .ok d => .ok (d, store)
      | .error e => .error (.migration e)
    | _ => singletonCreateDefault t ver dflt u store now

/-- Operation `SingletonRepository.save`: requires an authenticated user, stamps
`typeName`/`version`, and upserts (insert-or-replace) the row keyed by
the deterministic id. -/
def singletonSave (t : String) (ver : Int) (caller : Option String)
    (doc : JsonVal) (store : List Row) (now : Nat) :
    Except RepoError (List Row) :=
  match caller with
  | none => .error .unauthenticated
  | some u =>
    let id := singletonId t u
    let d := stampData t ver doc
    if store.any (fun r => r.id == id) then
      .ok (store.map (fun r =>
        if r.id == id then
          { r with user_id := u, type_name := t, data := d, updated_at := now }
        else r))
    else
      .ok (store ++ [⟨id, u, t, d, now, now⟩])

/-- Operation `SingletonRepository.delete`: requires an authenticated user (via
the deterministic id derivation), then deletes the singleton row the
DELETE policy permits. -/
def singletonDelete (caller : Option String) (t : String)
    (store : List Row) : Except RepoError (List Row) :=
  match caller with
  | none => .error .unauthenticated
  | some u =>
    .ok (store.filter (fun r =>
      !(r.id == singletonId t u && canDelete (some u) r)))

/-! ## Lemmas about field lookup and stamping -/

theorem lookupField_replace_found (k : String) (v : JsonVal) :
    ∀ fs : List (String × JsonVal), fs.any (fun p => p.1 = k) = true →
      lookupField (fs.map (fun p => if p.1 = k then (k, v) else p)) k = v := by
  intro fs
  induction fs with
  | nil => intro h; simp at h
  | cons p rest ih =>
    intro h
    by_cases hp : p.1 = k
    · rw [List.map_cons, if_pos hp]
      simp [lookupField]
    · have hrest : rest.any (fun p => p.1 = k) = true := by
        rw [List.any_cons] at h
        rcases Bool.or_eq_true_iff.mp h with h1 | h2
        · exact absurd (of_decide_eq_true h1) hp
        · exact h2
      rw [List.map_cons, if_neg hp]
      rw [lookupField, if_neg hp]
      exact ih hrest

theorem lookupField_append_missing (k : String) (v : JsonVal) :
    ∀ fs : List (String × JsonVal), fs.any (fun p => p.1 = k) = false →
      lookupField (fs ++ [(k, v)]) k = v := by
  intro fs
  induction fs with
  | nil => intro _; simp [lookupField]
  | cons p rest ih =>
    intro h
    rw [List.any_cons] at h
    have h12 := Bool.or_eq_false_iff.mp h
    have hp : ¬ p.1 = k := of_decide_eq_false h12.1
    rw [List.cons_append, lookupField, if_neg hp]
    exact ih h12.2

theorem lookupField_replace_ne (k k' : String) (v : JsonVal) (hne : k' ≠ k) :
    ∀ fs : List (String × JsonVal),
      lookupField (fs.map (fun p => if p.1 = k then (k, v) else p)) k' =
        lookupField fs k' := by
  intro fs
  induction fs with
  | nil => rfl
  | cons p rest ih =>
    by_cases hp : p.1 = k
    · rw [List.map_cons, if_pos hp]
      rw [lookupField, if_neg (Ne.symm hne), lookupField,
          if_neg (fun hh => hne (hp ▸ hh).symm)]
      exact ih
    · rw [List.map_cons, if_neg hp]
      by_cases hp' : p.1 = k'
      · rw [lookupField, if_pos hp', lookupField, if_pos hp']
      · rw [lookupField, if_neg hp', lookupField, if_neg hp']
        exact ih

theorem lookupField_append_ne (k k' : String) (v : JsonVal) (hne : k' ≠ k) :
    ∀ fs : List (String × JsonVal),
      lookupField (fs ++ [(k, v)]) k' = lookupField fs k' := by
  intro fs
  induction fs with
  | nil => simp [lookupField, Ne.symm hne]
  | cons p rest ih =>
    by_cases hp' : p.1 = k'
    · rw [List.cons_append, lookupField, if_pos hp', lookupField, if_pos hp']
    · rw [List.cons_append, lookupField, if_neg hp', lookupField, if_neg hp']
      exact ih

/-- Reading back the key just written by a `{...fs, k: v}` override. -/
theorem lookupField_setField_self (fs : List (String × JsonVal))
    (k : String) (v : JsonVal) :
    lookupField (setField fs k v) k = v := by
  unfold setField
  split
  next h => exact lookupField_replace_found k v fs h
  next h => exact lookupField_append_missing k v fs (Bool.of_not_eq_true h)

/-- A `{...fs, k: v}` override leaves every other key's value alone. -/
theorem lookupField_setField_ne (fs : List (String × JsonVal))
    (k k' : String) (v : JsonVal) (hne : k' ≠ k) :
    lookupField (setField fs k v) k' = lookupField fs k' := by
  unfold setField
  split
  next => exact lookupField_replace_ne k k' v hne fs
  next => exact lookupField_append_ne k k' v hne fs

/-- The persisted payload always reads back the stamped version. -/
theorem getField_stampData_version (t : String) (ver : Int) (d : JsonVal) :
    getField (stampData t ver d) "version" = .num ver := by
  simp [stampData, getField, lookupField_setField_self]

/-- The persisted payload always reads back the stamped type name. -/
theorem getField_stampData_typeName (t : String) (ver : Int) (d : JsonVal) :
    getField (stampData t ver d) "typeName" = .str t := by
  have h := lookupField_setField_ne
    (setField (objFieldsOf d) "typeName" (.str t)) "version" "typeName"
    (.num ver) (by simp)
  simp [stampData, getField, h, lookupField_setField_self]

theorem eqNum_eq_true (v : JsonVal) (n : Int) (h : eqNum v n = true) :
    v = .num n := by
  cases v <;> simp [eqNum] at h
  simp [h]

/-- The `case 3:` branch of the migration switch returns any payload
whose `version` field is `3` unchanged. -/
theorem projectMigrate_version3_passthrough (p : JsonVal)
    (h : getField p "version" = .num 3) :
    projectMigrate p = .ok p := by
  cases p <;> simp [getField] at h
  simp [projectMigrate, getField, h, isUndefined, eqNum]

/-- The `case undefined: case 1:` branch of the migration switch builds
the fresh v3 object from the input's `title`, `owner` and `description`
fields. -/
theorem projectMigrate_v1_branch (p : JsonVal)
    (hn : p ≠ .null) (hu : p ≠ .undefined)
    (h : isUndefined (getField p "version") = true ∨
         eqNum (getField p "version") 1 = true) :
    projectMigrate p =
      .ok (.obj [("version", .num 3),
                 ("typeName", .str "projects"),
                 ("title", getField p "title"),
                 ("members", .arr [getField p "owner"]),
                 ("description", getField p "description"),
                 ("priority", .num 5),
                 ("tags", .arr [])]) := by
  cases p with
  | null => exact absurd rfl hn
  | undefined => exact absurd rfl hu
  | bool b => rcases h with h | h <;> simp [projectMigrate, h]
  | num n => rcases h with h | h <;> simp [projectMigrate, h]
  | str s => rcases h with h | h <;> simp [projectMigrate, h]
  | arr xs => rcases h with h | h <;> simp [projectMigrate, h]
  | obj fs => rcases h with h | h <;> simp [projectMigrate, h]

/-- A current-shape payload declares version 3. -/
theorem isProjectV3Shape_version (p : JsonVal)
    (h : isProjectV3Shape p = true) :
    getField p "version" = .num 3 := by
  cases p with
  | obj fs =>
    apply eqNum_eq_true
    cases hv : eqNum (getField (JsonVal.obj fs) "version") 3 with
    | false =>
      simp only [isProjectV3Shape] at h
      rw [hv] at h
      simp at h
    | true => rfl
  | undefined => exact Bool.noConfusion h
  | null => exact Bool.noConfusion h
  | bool b => exact Bool.noConfusion h
  | num n => exact Bool.noConfusion h
  | str s => exact Bool.noConfusion h
  | arr xs => exact Bool.noConfusion h

/-! ## Migration claim theorems -/

/-- C1: the project payload `{title: "Test Project", owner: "user-123",
description: "Test"}`, carrying no version field and therefore detected
as version 1, migrates to exactly
`{version: 3, typeName: "projects", title: "Test Project",
members: ["user-123"], description: "Test", priority: 5, tags: []}`. -/
theorem v1_payload_migrates_to_v3_exact :
    projectMigrate (.obj [("title", .str "Test Project"),
                          ("owner", .str "user-123"),
                          ("description", .str "Test")]) =
      .ok (.obj [("version", .num 3),
                 ("typeName", .str "projects"),
                 ("title", .str "Test Project"),
                 ("members", .arr [.str "user-123"]),
                 ("description", .str "Test"),
                 ("priority", .num 5),
                 ("tags", .arr [])]) := rfl

/-- C3: every payload already at the current version with the current
schema's field shape is returned unchanged by `migrate` — migration is
the identity at the fixed point. -/
theorem migrate_identity_at_fixed_point (p : JsonVal)
    (h : isProjectV3Shape p = true) :
    projectMigrate p = .ok p :=
  projectMigrate_version3_passthrough p (isProjectV3Shape_version p h)

/-- Witness for C3: the spec's "already current" scenario payload is
current-shaped and migrates to itself unchanged. -/
theorem migrate_identity_at_fixed_point_witness :
    isProjectV3Shape (.obj [("version", .num 3),
                            ("typeName", .str "projects"),
                            ("title", .str "Test"),
                            ("members", .arr [.str "user-1"]),
                            ("description", .str "Test"),
                            ("priority", .num 8),
                            ("tags", .arr [.str "important"])]) = true ∧
    projectMigrate (.obj [("version", .num 3),
                          ("typeName", .str "projects"),
                          ("title", .str "Test"),
                          ("members", .arr [.str "user-1"]),
                          ("description", .str "Test"),
                          ("priority", .num 8),
                          ("tags", .arr [.str "important"])]) =
      .ok (.obj [("version", .num 3),
                 ("typeName", .str "projects"),
                 ("title", .str "Test"),
                 ("members", .arr [.str "user-1"]),
                 ("description", .str "Test"),
                 ("priority", .num 8),
                 ("tags", .arr [.str "important"])]) :=
  ⟨rfl, migrate_identity_at_fixed_point _ rfl⟩

/-- C4: a payload whose `version` field strictly matches none of the
recognized cases (`undefined`, `1`, `2`, `3`) — in particular any
version above the current one, and any non-integer version value —
fails with the `Unknown version` error naming that very version value:
the version is never guessed, coerced, or truncated. -/
theorem migrate_unknown_version_fails (p v : JsonVal)
    (hv : getField p "version" = v)
    (h1 : isUndefined v = false) (h2 : eqNum v 1 = false)
    (h3 : eqNum v 2 = false) (h4 : eqNum v 3 = false) :
    projectMigrate p = .error (.unknownVersion v) := by
  cases p <;> first
    | (subst hv; exact Bool.noConfusion h1)
    | simp [projectMigrate, hv, h1, h2, h3, h4]

/-- Witness for C4: the spec's unknown-version scenario, `version: 99`,
fails with `Unknown version` naming `99`. -/
theorem migrate_unknown_version_fails_witness :
    getField (.obj [("version", .num 99), ("typeName", .str "projects"),
                    ("title", .str "T")]) "version" = .num 99 ∧
    projectMigrate (.obj [("version", .num 99), ("typeName", .str "projects"),
                          ("title", .str "T")]) =
      .error (.unknownVersion (.num 99)) :=
  ⟨rfl, migrate_unknown_version_fails _ _ rfl rfl rfl rfl rfl⟩

/-- Counterexample to C7: the single-field payload `{version: 3}` is
not current-shaped, yet `migrate` returns it unchanged instead of
failing with a schema violation — `case 3:` performs no shape
validation at all. -/
theorem current_version_shape_unvalidated_cex :
    projectMigrate (.obj [("version", .num 3)]) =
      .ok (.obj [("version", .num 3)]) ∧
    isProjectV3Shape (.obj [("version", .num 3)]) = false :=
  ⟨rfl, rfl⟩

/-- C7 as amended: every payload declaring the current version is
passed through unchanged with no shape validation, whether or not its
field shape matches the current schema. -/
theorem current_version_passthrough_unvalidated (p : JsonVal)
    (h : getField p "version" = .num 3) :
    projectMigrate p = .ok p :=
  projectMigrate_version3_passthrough p h

/-- Witness for amended C7: a malformed current-version payload passes
through unchanged. -/
theorem current_version_passthrough_unvalidated_witness :
    getField (.obj [("version", .num 3), ("bogus", .bool true)])
      "version" = .num 3 ∧
    projectMigrate (.obj [("version", .num 3), ("bogus", .bool true)]) =
      .ok (.obj [("version", .num 3), ("bogus", .bool true)]) :=
  ⟨rfl, current_version_passthrough_unvalidated _ rfl⟩

/-- Counterexample to C8: a version-2 payload carrying the unexpected
extra field `legacy` migrates successfully, and the output keeps
`legacy` — a field outside the current schema — because the `case 2:`
transform spreads the whole input. -/
theorem migrate_carries_extra_fields_cex :
    projectMigrate (.obj [("version", .num 2), ("typeName", .str "projects"),
                          ("title", .str "T"), ("members", .arr []),
                          ("description", .str "D"), ("priority", .num 1),
                          ("legacy", .str "x")]) =
      .ok (.obj [("version", .num 3), ("typeName", .str "projects"),
                 ("title", .str "T"), ("members", .arr []),
                 ("description", .str "D"), ("priority", .num 1),
                 ("legacy", .str "x"), ("tags", .arr [])]) ∧
    "legacy" ∈ fieldNames (.obj [("version", .num 3),
                 ("typeName", .str "projects"),
                 ("title", .str "T"), ("members", .arr []),
                 ("description", .str "D"), ("priority", .num 1),
                 ("legacy", .str "x"), ("tags", .arr [])]) ∧
    "legacy" ∉ projectV3Fields :=
  ⟨rfl, by simp [fieldNames], by simp [projectV3Fields]⟩

/-- C8 as amended: migration of a version-1 (or versionless) payload
yields exactly the current schema's field set; version-2 inputs keep
any extra input fields through the object spread, and version-3 inputs
are returned as-is, so for those the output field set can exceed the
schema. -/
theorem v1_migration_exact_field_set (p : JsonVal)
    (h : isUndefined (getField p "version") = true ∨
         eqNum (getField p "version") 1 = true)
    (hn : p ≠ .null) (hu : p ≠ .undefined) :
    ∃ q, projectMigrate p = .ok q ∧ fieldNames q = projectV3Fields := by
  exact ⟨_, projectMigrate_v1_branch p hn hu h, rfl⟩

/-- Witness for amended C8: a versionless payload with an unexpected
input field migrates to a payload with exactly the schema's fields. -/
theorem v1_migration_exact_field_set_witness :
    (isUndefined (getField (.obj [("title", .str "A"), ("owner", .str "u"),
        ("description", .str "d"), ("junk", .num 0)]) "version") = true ∨
      eqNum (getField (.obj [("title", .str "A"), ("owner", .str "u"),
        ("description", .str "d"), ("junk", .num 0)]) "version") 1 = true) ∧
    (∃ q, projectMigrate (.obj [("title", .str "A"), ("owner", .str "u"),
        ("description", .str "d"), ("junk", .num 0)]) = .ok q ∧
      fieldNames q = projectV3Fields) :=
  ⟨Or.inl rfl,
   v1_migration_exact_field_set _ (Or.inl rfl)
     (fun hh => JsonVal.noConfusion hh) (fun hh => JsonVal.noConfusion hh)⟩

/-! ## Repository claim theorems -/

/-- C2: whatever `version` and `typeName` the in-memory document
carries, the payload `save` inserts and the payload `update` writes
read back `version = currentVersion` and `typeName = ` the repository's
type name — every row of the resulting store is either untouched (was
already present) or carries the stamped fields. -/
theorem save_update_stamp_current_version :
    (∀ (t : String) (ver : Int) (caller : Option String) (doc : JsonVal)
        (store : List Row) (fresh : String) (now : Nat)
        (rid : String) (store' : List Row),
      saveOp t ver caller doc store fresh now = .ok (rid, store') →
      ∀ r ∈ store', r ∈ store ∨
        (getField r.data "version" = .num ver ∧
         getField r.data "typeName" = .str t)) ∧
    (∀ (t : String) (ver : Int) (caller : Option String)
        (store : List Row) (id : String) (doc : JsonVal) (now : Nat)
        (store' : List Row),
      updateOp t ver caller store id doc now = .ok store' →
      ∀ r ∈ store', r ∈ store ∨
        (getField r.data "version" = .num ver ∧
         getField r.data "typeName" = .str t)) := by
  constructor
  · intro t ver caller doc store fresh now rid store' hsave r hr
    cases caller with
    | none => exact absurd hsave (by simp [saveOp])
    | some u =>
      rw [saveOp] at hsave
      by_cases hdup : store.any (fun r => r.id == fresh) = true
      · rw [if_pos hdup] at hsave
        exact absurd hsave (by simp)
      · rw [if_neg hdup] at hsave
        have hst : store' = store ++ [⟨fresh, u, t, stampData t ver doc, now, now⟩] := by
          injection hsave with h1
          injection h1 with _ h2
          exact h2.symm
        subst hst
        rcases List.mem_append.mp hr with hmem | hmem
        · exact Or.inl hmem
        · rcases List.mem_singleton.mp hmem with rfl
          exact Or.inr ⟨getField_stampData_version t ver doc,
                        getField_stampData_typeName t ver doc⟩
  · intro t ver caller store id doc now store' hupd r hr
    rw [updateOp] at hupd
    by_cases hchk : store.any (fun r => r.id == id && canUpdateRow caller r &&
        !updateCheck caller { r with data := stampData t ver doc,
                                     updated_at := now }) = true
    · rw [if_pos hchk] at hupd
      exact absurd hupd (by simp)
    · rw [if_neg hchk] at hupd
      have hst : store' = store.map (fun r =>
          if r.id == id && canUpdateRow caller r then
            { r with data := stampData t ver doc, updated_at := now }
          else r) := by
        injection hupd with h1
        exact h1.symm
      subst hst
      rcases List.mem_map.mp hr with ⟨r0, hr0, hrw⟩
      by_cases hc : (r0.id == id && canUpdateRow caller r0) = true
      · rw [if_pos hc] at hrw
        refine Or.inr ?_
        rw [← hrw]
        exact ⟨getField_stampData_version t ver doc,
               getField_stampData_typeName t ver doc⟩
      · rw [if_neg hc] at hrw
        exact Or.inl (hrw ▸ hr0)

/-- Witness for C2: saving a document that lies about its version
(`version: 99`) and typeName (`"evil"`) persists a row stamped
`version: 3`, `typeName: "projects"`; updating it with another lying
document re-stamps the row likewise. -/
theorem save_update_stamp_current_version_witness :
    (saveOp "projects" 3 (some "alice")
        (.obj [("version", .num 99), ("typeName", .str "evil"),
               ("title", .str "X")]) [] "id1" 0 =
      .ok ("id1",
        [⟨"id1", "alice", "projects",
          .obj [("version", .num 3), ("typeName", .str "projects"),
                ("title", .str "X")], 0, 0⟩]) ∧
      ((⟨"id1", "alice", "projects",
          .obj [("version", .num 3), ("typeName", .str "projects"),
                ("title", .str "X")], 0, 0⟩ : Row) ∈ ([] : List Row) ∨
        (getField (.obj [("version", .num 3), ("typeName", .str "projects"),
                         ("title", .str "X")]) "version" = .num 3 ∧
         getField (.obj [("version", .num 3), ("typeName", .str "projects"),
                         ("title", .str "X")]) "typeName" = .str "projects"))) ∧
    (updateOp "projects" 3 (some "alice")
        [⟨"id1", "alice", "projects",
          .obj [("version", .num 3), ("typeName", .str "projects"),
                ("title", .str "X")], 0, 0⟩] "id1"
        (.obj [("version", .num 7), ("title", .str "Y")]) 1 =
      .ok [⟨"id1", "alice", "projects",
            .obj [("version", .num 3), ("title", .str "Y"),
                  ("typeName", .str "projects")], 0, 1⟩] ∧
      ((⟨"id1", "alice", "projects",
          .obj [("version", .num 3), ("title", .str "Y"),
                ("typeName", .str "projects")], 0, 1⟩ : Row) ∈
          [⟨"id1", "alice", "projects",
            .obj [("version", .num 3), ("typeName", .str "projects"),
                  ("title", .str "X")], 0, 0⟩] ∨
        (getField (.obj [("version", .num 3), ("title", .str "Y"),
                         ("typeName", .str "projects")]) "version" = .num 3 ∧
         getField (.obj [("version", .num 3), ("title", .str "Y"),
                         ("typeName", .str "projects")]) "typeName" =
           .str "projects"))) :=
  ⟨⟨rfl, save_update_stamp_current_version.1 "projects" 3 (some "alice")
      (.obj [("version", .num 99), ("typeName", .str "evil"),
             ("title", .str "X")]) [] "id1" 0 "id1" _ rfl _
      (List.mem_singleton.mpr rfl)⟩,
   ⟨rfl, save_update_stamp_current_version.2 "projects" 3 (some "alice")
      [⟨"id1", "alice", "projects",
        .obj [("version", .num 3), ("typeName", .str "projects"),
              ("title", .str "X")], 0, 0⟩] "id1"
      (.obj [("version", .num 7), ("title", .str "Y")]) 1 _ rfl _
      (List.mem_singleton.mpr rfl)⟩⟩

/-- C5: whenever no row with the requested id is visible to the caller —
because no such row exists, or because every such row is hidden by
row-level access control — `get` returns the same absent result
(`null`), not an error: not-found and not-visible are
indistinguishable. -/
theorem get_collapses_absent_and_hidden
    (migr : JsonVal → Except MigError JsonVal)
    (caller : Option String) (store : List Row) (id : String)
    (h : ∀ r ∈ store, r.id = id → canRead caller r = false) :
    getOp migr caller store id = .ok none := by
  have hsel : selectById caller store id = [] := by
    rw [selectById, List.filter_eq_nil_iff]
    intro r hr
    simp only [Bool.and_eq_true, beq_iff_eq, not_and]
    intro hid
    simp [h r hr hid]
  rw [getOp, hsel]

/-- Witness for C5: a row owned by `bob` with no public-read flag is
invisible to `alice`; her `get` of that row's id and her `get` of a
nonexistent id both return the same absent result. -/
theorem get_collapses_absent_and_hidden_witness :
    (∀ r ∈ [(⟨"r1", "bob", "projects",
        .obj [("version", .num 3), ("title", .str "secret")], 0, 0⟩ : Row)],
      r.id = "r1" → canRead (some "alice") r = false) ∧
    getOp projectMigrate (some "alice")
      [⟨"r1", "bob", "projects",
        .obj [("version", .num 3), ("title", .str "secret")], 0, 0⟩]
      "r1" = .ok none ∧
    getOp projectMigrate (some "alice")
      [⟨"r1", "bob", "projects",
        .obj [("version", .num 3), ("title", .str "secret")], 0, 0⟩]
      "nonexistent" = .ok none :=
  ⟨fun r hr _ => by rcases List.mem_singleton.mp hr with rfl; rfl,
   get_collapses_absent_and_hidden _ _ _ _
     (fun r hr _ => by rcases List.mem_singleton.mp hr with rfl; rfl),
   get_collapses_absent_and_hidden _ _ _ _
     (fun r hr _ => by rcases List.mem_singleton.mp hr with rfl; rfl)⟩

/-- C9: if migration fails for any row returned to `list`, the whole
call fails with a migration error (the error of a failing row); no
partial result is returned and no failing row is skipped. -/
theorem list_fails_on_any_migration_failure
    (migr : JsonVal → Except MigError JsonVal) (rows : List Row)
    (r : Row) (e : MigError) (hr : r ∈ rows)
    (he : migr r.data = .error e) :
    ∃ e', listOp migr rows = .error (.migration e') ∧
      ∃ r' ∈ rows, migr r'.data = .error e' := by
  revert hr
  induction rows with
  | nil => intro hr; cases hr
  | cons a rest ih =>
    intro hr
    rcases List.mem_cons.mp hr with heq | hmem
    · refine ⟨e, ?_, r, List.mem_cons.mpr (Or.inl heq), he⟩
      rw [heq] at he
      simp [listOp, he]
    · cases ha : migr a.data with
      | error e0 =>
        exact ⟨e0, by simp [listOp, ha], a, List.mem_cons_self a rest, ha⟩
      | ok d =>
        rcases ih hmem with ⟨e', hlist, r', hr', he'⟩
        exact ⟨e', by simp [listOp, ha, hlist], r',
               List.mem_cons_of_mem a hr', he'⟩

/-- Witness for C9: listing a store of one migratable row and one row
with unknown version 99 fails as a whole with a migration error. -/
theorem list_fails_on_any_migration_failure_witness :
    (⟨"b", "u", "projects", .obj [("version", .num 99)], 0, 0⟩ : Row) ∈
      [(⟨"a", "u", "projects", .obj [("version", .num 3)], 0, 0⟩ : Row),
       ⟨"b", "u", "projects", .obj [("version", .num 99)], 0, 0⟩] ∧
    projectMigrate
      (Row.data ⟨"b", "u", "projects", .obj [("version", .num 99)], 0, 0⟩) =
      .error (.unknownVersion (.num 99)) ∧
    ∃ e', listOp projectMigrate
        [⟨"a", "u", "projects", .obj [("version", .num 3)], 0, 0⟩,
         ⟨"b", "u", "projects", .obj [("version", .num 99)], 0, 0⟩] =
        .error (.migration e') ∧
      ∃ r' ∈ [(⟨"a", "u", "projects", .obj [("version", .num 3)], 0, 0⟩ : Row),
              ⟨"b", "u", "projects", .obj [("version", .num 99)], 0, 0⟩],
        projectMigrate r'.data = .error e' :=
  ⟨List.mem_cons_of_mem _ (List.mem_singleton.mpr rfl), rfl,
   list_fails_on_any_migration_failure projectMigrate _ _
     (.unknownVersion (.num 99))
     (List.mem_cons_of_mem _ (List.mem_singleton.mpr rfl)) rfl⟩

/-- Counterexample to C10: with no resolvable caller identity, `update`
and `delete` do not fail with an unauthenticated error — they succeed
(row-level access control simply matches no rows, leaving the store
unchanged), even though a row with the targeted id exists. -/
theorem unauthenticated_update_delete_succeed_cex :
    updateOp "projects" 3 none
      [⟨"r1", "bob", "projects", .obj [("version", .num 3)], 0, 0⟩] "r1"
      (.obj [("title", .str "hack")]) 1 =
      .ok [⟨"r1", "bob", "projects", .obj [("version", .num 3)], 0, 0⟩] ∧
    deleteOp none
      [⟨"r1", "bob", "projects", .obj [("version", .num 3)], 0, 0⟩] "r1" =
      .ok [⟨"r1", "bob", "projects", .obj [("version", .num 3)], 0, 0⟩] :=
  ⟨rfl, rfl⟩

/-- C10 as amended: `save` and every singleton operation fail with the
unauthenticated error when no caller identity is resolvable, and are
never retried; `update` and `delete`, by contrast, perform no
authentication check of their own — with no identity they succeed while
modifying no rows, the denial being left to row-level access control. -/
theorem unauthenticated_write_behavior :
    (∀ (t : String) (ver : Int) (doc : JsonVal) (store : List Row)
        (fresh : String) (now : Nat),
      saveOp t ver none doc store fresh now = .error .unauthenticated) ∧
    (∀ (t : String) (ver : Int) (migr : JsonVal → Except MigError JsonVal)
        (dflt : JsonVal) (store : List Row) (now : Nat),
      singletonGet t ver migr dflt none store now = .error .unauthenticated) ∧
    (∀ (t : String) (ver : Int) (doc : JsonVal) (store : List Row) (now : Nat),
      singletonSave t ver none doc store now = .error .unauthenticated) ∧
    (∀ (t : String) (store : List Row),
      singletonDelete none t store = .error .unauthenticated) ∧
    (∀ (t : String) (ver : Int) (store : List Row) (id : String)
        (doc : JsonVal) (now : Nat),
      updateOp t ver none store id doc now = .ok store) ∧
    (∀ (store : List Row) (id : String),
      deleteOp none store id = .ok store) := by
  refine ⟨fun t ver doc store fresh now => rfl,
          fun t ver migr dflt store now => rfl,
          fun t ver doc store now => rfl,
          fun t store => rfl, ?_, ?_⟩
  · intro t ver store id doc now
    simp [updateOp, canUpdateRow]
  · intro store id
    simp [deleteOp, canDelete]

/-- C6: the singleton row id is the deterministic function
`singletonId` of the type name and owner; against a store with no row
under that id, a first `get` inserts exactly one default row under that
id, a second independent `get` converges on the same row id and the
same stamped default payload without creating a second row, and a
racing caller that missed the fetch but finds the id already taken at
insert time has the duplicate-key failure swallowed — it succeeds with
the same default payload and the store keeps its single row. -/
theorem singleton_get_converges (t : String) (ver : Int)
    (migr : JsonVal → Except MigError JsonVal) (dflt : JsonVal)
    (u : String) (store : List Row) (now1 now2 : Nat)
    (h0 : ∀ r ∈ store, r.id ≠ singletonId t u)
    (hmig : migr (stampData t ver dflt) = .ok (stampData t ver dflt)) :
    singletonGet t ver migr dflt (some u) store now1 =
      .ok (stampData t ver dflt,
        store ++ [⟨singletonId t u, u, t, stampData t ver dflt,
                   now1, now1⟩]) ∧
    singletonGet t ver migr dflt (some u)
        (store ++ [⟨singletonId t u, u, t, stampData t ver dflt,
                    now1, now1⟩]) now2 =
      .ok (stampData t ver dflt,
        store ++ [⟨singletonId t u, u, t, stampData t ver dflt,
                   now1, now1⟩]) ∧
    singletonCreateDefault t ver dflt u
        (store ++ [⟨singletonId t u, u, t, stampData t ver dflt,
                    now1, now1⟩]) now2 =
      .ok (stampData t ver dflt,
        store ++ [⟨singletonId t u, u, t, stampData t ver dflt,
                   now1, now1⟩]) := by
  have hany : store.any (fun r => r.id == singletonId t u) = false := by
    rw [List.any_eq_false]
    intro r hr
    simp only [beq_iff_eq]
    exact h0 r hr
  have hfil : store.filter
      (fun r => r.id == singletonId t u && canRead (some u) r) = [] := by
    rw [List.filter_eq_nil_iff]
    intro r hr
    simp only [Bool.and_eq_true, beq_iff_eq, not_and]
    intro hid
    exact absurd hid (h0 r hr)
  have hsel0 : selectById (some u) store (singletonId t u) = [] := by
    rw [selectById]; exact hfil
  refine ⟨?_, ?_, ?_⟩
  · simp [singletonGet, hsel0, singletonCreateDefault, hany]
  · have hsel1 : selectById (some u)
        (store ++ [⟨singletonId t u, u, t, stampData t ver dflt,
                    now1, now1⟩]) (singletonId t u) =
        [⟨singletonId t u, u, t, stampData t ver dflt, now1, now1⟩] := by
      rw [selectById, List.filter_append, hfil]
      simp [canRead]
    simp [singletonGet, hsel1, hmig]
  · simp [singletonCreateDefault, List.any_append]

/-- Witness for C6: user `u1`, type `projects`, default `{theme: "dark"}`
against the empty store — the two gets and the raced insert all
converge on the stamped default under the deterministic id. -/
theorem singleton_get_converges_witness :
    (∀ r ∈ ([] : List Row), r.id ≠ singletonId "projects" "u1") ∧
    projectMigrate (stampData "projects" 3 (.obj [("theme", .str "dark")])) =
      .ok (stampData "projects" 3 (.obj [("theme", .str "dark")])) ∧
    (singletonGet "projects" 3 projectMigrate
        (.obj [("theme", .str "dark")]) (some "u1") [] 5 =
      .ok (stampData "projects" 3 (.obj [("theme", .str "dark")]),
        [⟨singletonId "projects" "u1", "u1", "projects",
          stampData "projects" 3 (.obj [("theme", .str "dark")]), 5, 5⟩]) ∧
    singletonGet "projects" 3 projectMigrate
        (.obj [("theme", .str "dark")]) (some "u1")
        [⟨singletonId "projects" "u1", "u1", "projects",
          stampData "projects" 3 (.obj [("theme", .str "dark")]), 5, 5⟩] 6 =
      .ok (stampData "projects" 3 (.obj [("theme", .str "dark")]),
        [⟨singletonId "projects" "u1", "u1", "projects",
          stampData "projects" 3 (.obj [("theme", .str "dark")]), 5, 5⟩]) ∧
    singletonCreateDefault "projects" 3 (.obj [("theme", .str "dark")]) "u1"
        [⟨singletonId "projects" "u1", "u1", "projects",
          stampData "projects" 3 (.obj [("theme", .str "dark")]), 5, 5⟩] 6 =
      .ok (stampData "projects" 3 (.obj [("theme", .str "dark")]),
        [⟨singletonId "projects" "u1", "u1", "projects",
          stampData "projects" 3 (.obj [("theme", .str "dark")]), 5, 5⟩])) :=
  ⟨fun r hr => absurd hr (List.not_mem_nil r), rfl,
   singleton_get_converges "projects" 3 projectMigrate
     (.obj [("theme", .str "dark")]) "u1" [] 5 6
     (fun r hr => absurd hr (List.not_mem_nil r)) rfl⟩

end VersionedRepo
